import Mathlib

/-!
Verification of the admin validation page of the medq repository.

The client page (src/app/admin/validation/page.tsx) is embedded directly:
the status mapping and defaulting in loadJobs, the statistics counters,
the auto-refresh effect, the pagination slice, and the guard on the
download action. Server-side pieces that are not in the repository
snapshot (the row validator, the job store and processor, the
downloadResult handler) are modelled from the specification; their doc
comments say so explicitly.
-/

namespace MedqValidation

/-! ## Client data model (page.tsx, interface AiJob and friends) -/

/-- Client-facing job status, the union type of AiJob.status in page.tsx:
queued, processing, completed, failed, cancelled. -/
inductive JobStatus where
  | queued
  | processing
  | completed
  | failed
  | cancelled
  deriving DecidableEq, Repr

/-- A job object as returned by the listing API, with the fields loadJobs
reads. Optional fields model properties that may be absent in the JSON. -/
structure ApiJob where
  id : String
  fileName : Option String
  phase : Option String
  progress : Option Nat
  message : Option String
  deriving DecidableEq, Repr

/-- A mapped job as stored in the allJobs state (interface AiJob), with the
fields the claims are about. -/
structure AiJob where
  id : String
  fileName : String
  status : JobStatus
  progress : Nat
  message : String
  deriving DecidableEq, Repr

/-- JavaScript logical-or defaulting for an optional string, as in
job.fileName or squiggly-or a default: undefined and the empty string are
falsy and take the default. -/
def jsOrString : Option String → String → String
  | none, d => d
  | some s, d => if s = "" then d else s

/-- JavaScript logical-or defaulting for an optional number, as in
job.progress or squiggly-or 0: undefined and 0 are falsy and take the
default. -/
def jsOrNat : Option Nat → Nat → Nat
  | none, d => d
  | some n, d => if n = 0 then d else n

/-- The status mapping of loadJobs (page.tsx lines 99 to 101): a chain of
conditional expressions on job.phase; anything that is not complete, error
or running becomes queued. -/
def mapJobStatus (phase : Option String) : JobStatus :=
  if phase = some "complete" then .completed
  else if phase = some "error" then .failed
  else if phase = some "running" then .processing
  else .queued

/-- The per-job mapping of loadJobs (page.tsx lines 96 to 110), restricted
to the fields the claims mention. -/
def mapJob (job : ApiJob) : AiJob :=
  { id := job.id
    fileName := jsOrString job.fileName "fichier.xlsx"
    status := mapJobStatus job.phase
    progress := jsOrNat job.progress 0
    message := jsOrString job.message "" }

/-- The four statistics counters (interface StatsData). -/
structure StatsData where
  totalJobs : Nat
  completedJobs : Nat
  activeJobs : Nat
  failedJobs : Nat
  deriving DecidableEq, Repr

/-- The stats computation of loadJobs (page.tsx lines 115 to 120): length
of the mapped list and three filters on status. -/
def computeStats (mappedJobs : List AiJob) : StatsData :=
  { totalJobs := mappedJobs.length
    completedJobs := (mappedJobs.filter (fun j => j.status == .completed)).length
    activeJobs := (mappedJobs.filter (fun j => j.status == .queued || j.status == .processing)).length
    failedJobs := (mappedJobs.filter (fun j => j.status == .failed)).length }

/-! ## Auto-refresh effect (page.tsx lines 132 to 152) -/

/-- One run of the auto-refresh useEffect body: if there are active jobs
and no timer is installed, install one; if there are no active jobs and a
timer is installed, clear it. The result is whether a timer is installed
after the run. -/
def refreshEffectStep (activeJobs : Nat) (timerInstalled : Bool) : Bool :=
  if activeJobs > 0 then
    if !timerInstalled then true else timerInstalled
  else
    if timerInstalled then false else timerInstalled

/-! ## Pagination (page.tsx lines 292 to 295 and 576 to 595) -/

def itemsPerPage : Nat := 4

/-- Math.ceil of allJobs.length divided by itemsPerPage. -/
def totalPages (n : Nat) : Nat := (n + itemsPerPage - 1) / itemsPerPage

/-- The index of the first displayed job: (currentPage - 1) * itemsPerPage. -/
def startIndex (currentPage : Nat) : Nat := (currentPage - 1) * itemsPerPage

/-- allJobs.slice(startIndex, startIndex + itemsPerPage). -/
def displayedJobs (allJobs : List AiJob) (currentPage : Nat) : List AiJob :=
  (allJobs.drop (startIndex currentPage)).take itemsPerPage

/-- The previous-page handler: setCurrentPage(Math.max(1, currentPage - 1)). -/
def prevPage (currentPage : Nat) : Nat := max 1 (currentPage - 1)

/-- The next-page handler: setCurrentPage(Math.min(totalPages, currentPage + 1)). -/
def nextPage (n currentPage : Nat) : Nat := min (totalPages n) (currentPage + 1)

/-- The slice the claim describes: the contiguous part of the list from
index (p - 1) * 4 up to but excluding min(p * 4, n). Stated from the
claim wording, to be compared with displayedJobs. -/
def claimedSlice (allJobs : List AiJob) (p : Nat) : List AiJob :=
  (allJobs.take (min (p * itemsPerPage) allJobs.length)).drop ((p - 1) * itemsPerPage)

/-- The guard on the download button (page.tsx line 552): the action is
offered exactly when job.status is completed. -/
def showDownloadAction (j : AiJob) : Bool := j.status == .completed

/-! ## Row validator (server side, not in the repository snapshot) -/

/-- Sheet kinds, the SheetName union of page.tsx. -/
inductive SheetName where
  | qcm
  | qroc
  | cas_qcm
  | cas_qroc
  deriving DecidableEq, Repr

/-- Cell data of one row: an ordered mapping of column name to raw value,
as in the data field of GoodRow. -/
def RowData : Type := List (String × String)

instance : DecidableEq RowData := by
  unfold RowData
  infer_instance

/-- A valid row as returned by the validation API (interface GoodRow). -/
structure GoodRow where
  sheet : SheetName
  row : Nat
  data : RowData
  deriving DecidableEq

/-- An invalid row as returned by the validation API (interface BadRow);
reason is the human-readable classification failure. -/
structure BadRow where
  sheet : SheetName
  row : Nat
  reason : String
  original : RowData
  deriving DecidableEq

/-- Outcome of classifying one row: exactly Good or Bad. -/
inductive ValidationOutcome where
  | good : GoodRow → ValidationOutcome
  | bad : BadRow → ValidationOutcome
  deriving DecidableEq

/-- Cell lookup by column name in the row mapping. -/
def getCell (data : RowData) (col : String) : Option String :=
  (data.find? (fun kv => kv.1 == col)).map (fun kv => kv.2)

/-- Trimming of leading and trailing whitespace, written over the
character list so that it evaluates by reduction. -/
def strTrim (s : String) : String :=
  ⟨((s.data.dropWhile Char.isWhitespace).reverse.dropWhile Char.isWhitespace).reverse⟩

/-- Modelled from the spec: the recognized no-answer sentinel of the QCM
answer rule. The validator source is not in the snapshot; the help text of
page.tsx (line 374) lists the accepted values A to E, the question mark,
and the sentinel Pas de reponse. -/
def noAnswerSentinels : List String := ["Pas de réponse", "pas de réponse"]

/-- The answer letters the QCM rule accepts, in both cases. -/
def qcmLetters : List String := ["A", "B", "C", "D", "E", "a", "b", "c", "d", "e"]

/-- Modelled from the spec: the QCM answer predicate. A value is accepted
when it is one of the letters A to E case-insensitively, the literal
question mark, or a recognized no-answer sentinel. -/
def qcmAnswerOk (answer : String) : Bool :=
  let t := strTrim answer
  t == "?" || qcmLetters.contains t || noAnswerSentinels.contains t

/-- Modelled from the spec: the reason text for a QCM answer that fails
the predicate names the invalid value. -/
def invalidAnswerReason (answer : String) : String :=
  "Réponse invalide: " ++ answer

/-- Modelled from the spec: the reason text for a missing required column
identifies the column by name. -/
def missingColumnReason (col : String) : String :=
  "Colonne requise manquante: " ++ col

/-- Modelled from the spec: the reason text for an empty QROC answer. -/
def emptyAnswerReason : String := "Réponse vide"

/-- Modelled from the spec: whether a sheet kind uses the QCM answer rule
(qcm and cas_qcm) or the non-empty rule (qroc and cas_qroc). -/
def isQcmSheet : SheetName → Bool
  | .qcm => true
  | .cas_qcm => true
  | .qroc => false
  | .cas_qroc => false

/-- Modelled from the spec: per-row classification, section 4.1 of the
spec. The validator source is not in the snapshot. A row missing the
question column or the answer column is Bad naming the column; a QCM-kind
row with an answer failing the predicate is Bad naming the value; a
QROC-kind row whose answer is blank after trimming is Bad; every other
row is Good with the original mapping as normalized data. -/
def validateRow (sheet : SheetName) (rowIdx : Nat) (data : RowData) : ValidationOutcome :=
  match getCell data "question" with
  | none => .bad ⟨sheet, rowIdx, missingColumnReason "question", data⟩
  | some q =>
    if (strTrim q) = "" then .bad ⟨sheet, rowIdx, missingColumnReason "question", data⟩
    else
      match getCell data "answer" with
      | none => .bad ⟨sheet, rowIdx, missingColumnReason "answer", data⟩
      | some a =>
        if isQcmSheet sheet then
          if qcmAnswerOk a then .good ⟨sheet, rowIdx, data⟩
          else .bad ⟨sheet, rowIdx, invalidAnswerReason a, data⟩
        else
          if (strTrim a) = "" then .bad ⟨sheet, rowIdx, emptyAnswerReason, data⟩
          else .good ⟨sheet, rowIdx, data⟩

/-- Result of a validation run, the shape returned by the validation API. -/
structure ValidationResult where
  good : List GoodRow
  bad : List BadRow
  goodCount : Nat
  badCount : Nat
  deriving DecidableEq

/-- Modelled from the spec: classify every row of every sheet in declared
order, keeping source row order (1-based indices) within each sheet. -/
def validateSheetRows (sheet : SheetName) (rows : List RowData) : List ValidationOutcome :=
  rows.enum.map (fun p => validateRow sheet (p.1 + 1) p.2)

/-- All per-row outcomes of a run, sheets in declared order. -/
def validationOutcomes (sheets : List (SheetName × List RowData)) : List ValidationOutcome :=
  sheets.flatMap (fun p => validateSheetRows p.1 p.2)

/-- The Good subsequence of a list of outcomes, in order. -/
def goodRowsOf (outcomes : List ValidationOutcome) : List GoodRow :=
  outcomes.filterMap (fun o => match o with | .good g => some g | .bad _ => none)

/-- The Bad subsequence of a list of outcomes, in order. -/
def badRowsOf (outcomes : List ValidationOutcome) : List BadRow :=
  outcomes.filterMap (fun o => match o with | .bad b => some b | .good _ => none)

/-- Modelled from the spec: the whole-file validate contract of section
4.1, partitioning all outcomes into the good and bad sequences with their
counts. -/
def validate (sheets : List (SheetName × List RowData)) : ValidationResult :=
  { good := goodRowsOf (validationOutcomes sheets)
    bad := badRowsOf (validationOutcomes sheets)
    goodCount := (goodRowsOf (validationOutcomes sheets)).length
    badCount := (badRowsOf (validationOutcomes sheets)).length }

/-- Total number of input rows across all sheets. -/
def totalRowCount (sheets : List (SheetName × List RowData)) : Nat :=
  (sheets.map (fun p => p.2.length)).sum

/-! ## Job store and processor (server side, not in the repository snapshot) -/

/-- Server-side job phase, section 3 of the spec: queued, running,
complete, error. -/
inductive JobPhase where
  | queued
  | running
  | complete
  | error
  deriving DecidableEq, Repr

/-- Modelled from the spec: progress recomputed by the processor as the
floor of processedItems over totalItems times 100 (section 4.3); a job
with totalItems zero completes immediately at 100 (section 8). -/
def progressOf (processedItems totalItems : Nat) : Nat :=
  if totalItems = 0 then 100 else processedItems * 100 / totalItems

/-- Modelled from the spec: the mutable job record held by the job store,
restricted to the fields the progress claims mention. -/
structure Job where
  phase : JobPhase
  progress : Nat
  processedItems : Nat
  totalItems : Nat
  deriving DecidableEq, Repr

/-- A job as created by the store: phase queued, progress 0. -/
def initJob (total : Nat) : Job := ⟨.queued, 0, 0, total⟩

/-- Modelled from the spec: the lifecycle transitions of a job, sections
4.2 and 4.3. The processor starts a queued job; each finished batch
accumulates processedItems (never past totalItems, never backwards) and
recomputes progress; normal completion forces progress to 100; a failure
threshold moves the job to error. -/
inductive JobStep : Job → Job → Prop where
  | start (total : Nat) :
      JobStep (initJob total) ⟨.running, progressOf 0 total, 0, total⟩
  | batch (j : Job) (processed : Nat) :
      j.phase = .running →
      j.processedItems ≤ processed →
      processed ≤ j.totalItems →
      JobStep j ⟨.running, progressOf processed j.totalItems, processed, j.totalItems⟩
  | finish (j : Job) :
      j.phase = .running →
      JobStep j ⟨.complete, 100, j.totalItems, j.totalItems⟩
  | fail (j : Job) :
      j.phase = .running →
      JobStep j ⟨.error, j.progress, j.processedItems, j.totalItems⟩

/-- States a poller can observe: reachable from the created job by
lifecycle transitions. -/
def JobReachable (total : Nat) (s : Job) : Prop :=
  Relation.ReflTransGen JobStep (initJob total) s

/-- The state invariant the progress claims rest on. -/
def jobInv (s : Job) : Prop :=
  s.progress ≤ 100 ∧
  s.processedItems ≤ s.totalItems ∧
  (s.phase = .queued → s.progress = 0) ∧
  (s.phase = .running → s.progress = progressOf s.processedItems s.totalItems) ∧
  (s.phase = .complete → s.progress = 100)

/-! ## Download contract (server side, not in the repository snapshot) -/

/-- Failure mode of the download contract, section 4.4 of the spec. -/
inductive DownloadError where
  | NotReady
  deriving DecidableEq, Repr

/-- Modelled from the spec: the downloadResult handler of section 4.4
fails with NotReady unless the phase is complete. -/
def downloadResult (j : Job) : Except DownloadError Unit :=
  if j.phase = .complete then .ok () else .error .NotReady

/-- A concrete five-element job list used to instantiate the pagination
claim. -/
def sampleJobs : List AiJob :=
  [⟨"j1", "a.xlsx", .completed, 100, ""⟩,
   ⟨"j2", "b.xlsx", .processing, 40, "en cours"⟩,
   ⟨"j3", "c.xlsx", .queued, 0, ""⟩,
   ⟨"j4", "d.xlsx", .failed, 10, "erreur"⟩,
   ⟨"j5", "e.xlsx", .completed, 100, ""⟩]

/-! ## Shared lemmas -/

/-- The status mapping only ever yields one of the four mapped statuses. -/
theorem mapJobStatus_cases (phase : Option String) :
    mapJobStatus phase = .completed ∨ mapJobStatus phase = .failed ∨
    mapJobStatus phase = .processing ∨ mapJobStatus phase = .queued := by
  unfold mapJobStatus
  split_ifs <;> simp

/-- Counting the three status buckets covers a list without a cancelled
entry exactly once. -/
theorem length_eq_status_counts (l : List AiJob) :
    (∀ j ∈ l, j.status ≠ JobStatus.cancelled) →
    l.length = (l.filter (fun j => j.status == .completed)).length
      + (l.filter (fun j => j.status == .queued || j.status == .processing)).length
      + (l.filter (fun j => j.status == .failed)).length := by
  induction l with
  | nil => intro _; simp
  | cons a t ih =>
    intro h
    have ha := h a (by simp)
    have ht := ih (fun j hj => h j (by simp [hj]))
    rcases hs : a.status
    case cancelled => exact absurd hs ha
    all_goals simp +decide [List.filter_cons, hs]
    all_goals omega

/-! ## C1 -/

/-- C1 counterexample: the loadJobs status mapping takes only the phase and
never yields the cancelled status, for any phase value; there is no
phase-and-cancel-flag combination producing cancelled. -/
theorem C1_counterexample :
    ¬ ∃ phase : Option String, mapJobStatus phase = JobStatus.cancelled := by
  rintro ⟨phase, h⟩
  rcases mapJobStatus_cases phase with h2 | h2 | h2 | h2 <;> rw [h2] at h <;> exact JobStatus.noConfusion h

/-- C1 (amended): the client-facing status is derived from the phase
alone: complete maps to completed, error to failed, running to processing,
and every other phase value (missing included) maps to queued, so the
mapping always lands in one of the four statuses completed, failed,
processing, queued; although the AiJob status type declares cancelled,
the mapping uses no cancel flag and never yields it. -/
theorem C1_status_from_phase (phase : Option String) :
    mapJobStatus (some "complete") = .completed ∧
    mapJobStatus (some "error") = .failed ∧
    mapJobStatus (some "running") = .processing ∧
    (phase ≠ some "complete" → phase ≠ some "error" → phase ≠ some "running" →
      mapJobStatus phase = .queued) ∧
    (mapJobStatus phase = .completed ∨ mapJobStatus phase = .failed ∨
      mapJobStatus phase = .processing ∨ mapJobStatus phase = .queued) := by
  refine ⟨by decide, by decide, by decide, fun h1 h2 h3 => ?_, mapJobStatus_cases phase⟩
  unfold mapJobStatus
  rw [if_neg h1, if_neg h2, if_neg h3]

/-- C1 witness: the three recognized phases map as documented and the
unrecognized phase value cancelled maps to queued, not to the cancelled
status. -/
theorem C1_status_from_phase_witness :
    mapJobStatus (some "complete") = .completed ∧
    mapJobStatus (some "error") = .failed ∧
    mapJobStatus (some "running") = .processing ∧
    mapJobStatus (some "cancelled") = JobStatus.queued :=
  ⟨(C1_status_from_phase (some "cancelled")).1,
   (C1_status_from_phase (some "cancelled")).2.1,
   (C1_status_from_phase (some "cancelled")).2.2.1,
   (C1_status_from_phase (some "cancelled")).2.2.2.1 (by decide) (by decide) (by decide)⟩

/-! ## C2 -/

/-- C2: after every run of the auto-refresh effect body, the polling timer
is installed if and only if the number of active jobs is positive, whatever
the timer state was before; so polling stops once no active job remains and
resumes when one appears. -/
theorem C2_polling_iff_active (activeJobs : Nat) (timerInstalled : Bool) :
    refreshEffectStep activeJobs timerInstalled = true ↔ 0 < activeJobs := by
  unfold refreshEffectStep
  rcases timerInstalled <;> rcases Nat.eq_zero_or_pos activeJobs with h | h <;>
    simp [h, Nat.pos_iff_ne_zero]

/-! ## C8 -/

/-- C8: the loadJobs mapping is total and never produces cancelled: phase
complete maps to completed, error to failed, running to processing, and any
other phase (missing included) to queued; a missing fileName defaults to
fichier.xlsx, a missing progress to 0 and a missing message to the empty
string. -/
theorem C8_loadJobs_mapping (job : ApiJob) :
    (job.phase = some "complete" → (mapJob job).status = .completed) ∧
    (job.phase = some "error" → (mapJob job).status = .failed) ∧
    (job.phase = some "running" → (mapJob job).status = .processing) ∧
    (job.phase ≠ some "complete" → job.phase ≠ some "error" →
      job.phase ≠ some "running" → (mapJob job).status = .queued) ∧
    ((mapJob job).status = .completed ∨ (mapJob job).status = .failed ∨
      (mapJob job).status = .processing ∨ (mapJob job).status = .queued) ∧
    (job.fileName = none → (mapJob job).fileName = "fichier.xlsx") ∧
    (job.progress = none → (mapJob job).progress = 0) ∧
    (job.message = none → (mapJob job).message = "") := by
  refine ⟨fun h => ?_, fun h => ?_, fun h => ?_, fun h1 h2 h3 => ?_,
    mapJobStatus_cases job.phase, fun h => ?_, fun h => ?_, fun h => ?_⟩
  · show mapJobStatus job.phase = _
    rw [h]; decide
  · show mapJobStatus job.phase = _
    rw [h]; decide
  · show mapJobStatus job.phase = _
    rw [h]; decide
  · show mapJobStatus job.phase = _
    unfold mapJobStatus
    rw [if_neg h1, if_neg h2, if_neg h3]
  · show jsOrString job.fileName _ = _
    rw [h]
    rfl
  · show jsOrNat job.progress _ = _
    rw [h]
    rfl
  · show jsOrString job.message _ = _
    rw [h]
    rfl

/-- C8 witness: a job object with every optional field absent maps to
status queued with the documented defaults, and one with phase complete
maps to completed. -/
theorem C8_loadJobs_mapping_witness :
    (mapJob ⟨"j1", none, none, none, none⟩).status = JobStatus.queued ∧
    (mapJob ⟨"j1", none, none, none, none⟩).fileName = "fichier.xlsx" ∧
    (mapJob ⟨"j1", none, none, none, none⟩).progress = 0 ∧
    (mapJob ⟨"j1", none, none, none, none⟩).message = "" ∧
    (mapJob ⟨"j2", none, some "complete", some 40, none⟩).status = JobStatus.completed :=
  ⟨(C8_loadJobs_mapping _).2.2.2.1 (by decide) (by decide) (by decide),
   (C8_loadJobs_mapping _).2.2.2.2.2.1 rfl,
   (C8_loadJobs_mapping _).2.2.2.2.2.2.1 rfl,
   (C8_loadJobs_mapping _).2.2.2.2.2.2.2 rfl,
   (C8_loadJobs_mapping _).1 rfl⟩

/-! ## C9 -/

/-- C9: after a refresh, the statistics partition the mapped job list:
totalJobs is the number of mapped jobs and equals completedJobs plus
activeJobs plus failedJobs, where activeJobs counts queued and processing
jobs, completedJobs counts completed ones and failedJobs the failed ones. -/
theorem C9_stats_partition (apiJobs : List ApiJob) :
    (computeStats (apiJobs.map mapJob)).totalJobs = (apiJobs.map mapJob).length ∧
    (computeStats (apiJobs.map mapJob)).totalJobs =
      (computeStats (apiJobs.map mapJob)).completedJobs
        + (computeStats (apiJobs.map mapJob)).activeJobs
        + (computeStats (apiJobs.map mapJob)).failedJobs := by
  refine ⟨rfl, ?_⟩
  have h : ∀ j ∈ apiJobs.map mapJob, j.status ≠ JobStatus.cancelled := by
    intro j hj
    rcases List.mem_map.mp hj with ⟨a, _, rfl⟩
    show mapJobStatus a.phase ≠ _
    rcases mapJobStatus_cases a.phase with h2 | h2 | h2 | h2 <;> rw [h2] <;>
      exact fun hc => JobStatus.noConfusion hc
  exact length_eq_status_counts (apiJobs.map mapJob) h

/-! ## C10 -/

/-- C10: for a job list of length n and a page p with 1 <= p <=
ceil(n / 4), the displayed jobs are exactly the contiguous slice from
index (p - 1) * 4 up to but excluding min(p * 4, n); at most 4 jobs are
shown, and the previous and next controls keep the page within 1 to
ceil(n / 4). -/
theorem C10_pagination (allJobs : List AiJob) (p : Nat)
    (hp1 : 1 ≤ p) (hp2 : p ≤ totalPages allJobs.length) :
    displayedJobs allJobs p = claimedSlice allJobs p ∧
    (displayedJobs allJobs p).length ≤ itemsPerPage ∧
    1 ≤ prevPage p ∧ prevPage p ≤ totalPages allJobs.length ∧
    1 ≤ nextPage allJobs.length p ∧ nextPage allJobs.length p ≤ totalPages allJobs.length := by
  have hpages : 1 ≤ totalPages allJobs.length := le_trans hp1 hp2
  refine ⟨?_, ?_, ?_, ?_, ?_, ?_⟩
  · unfold displayedJobs claimedSlice startIndex
    have htake : allJobs.take (min (p * itemsPerPage) allJobs.length)
        = allJobs.take (p * itemsPerPage) := by
      rcases le_total (p * itemsPerPage) allJobs.length with hle | hle
      · rw [min_eq_left hle]
      · rw [min_eq_right hle, List.take_length, List.take_of_length_le hle]
    rw [htake, List.drop_take]
    have h4 : p * itemsPerPage - (p - 1) * itemsPerPage = itemsPerPage := by
      unfold itemsPerPage
      omega
    rw [h4]
  · unfold displayedJobs
    exact le_trans (List.length_take_le _ _) (le_refl _)
  · exact le_max_left 1 _
  · unfold prevPage
    rcases max_cases 1 (p - 1) with ⟨hm, _⟩ | ⟨hm, _⟩ <;> rw [hm] <;> omega
  · unfold nextPage
    exact le_min hpages (by omega)
  · exact min_le_left _ _

/-- C10 witness: on a five-job list, page 2 shows exactly the slice from
index 4 to 5 and the page controls stay within range. -/
theorem C10_pagination_witness :
    (1 ≤ 2 ∧ 2 ≤ totalPages sampleJobs.length) ∧
    (displayedJobs sampleJobs 2 = claimedSlice sampleJobs 2 ∧
      (displayedJobs sampleJobs 2).length ≤ itemsPerPage ∧
      1 ≤ prevPage 2 ∧ prevPage 2 ≤ totalPages sampleJobs.length ∧
      1 ≤ nextPage sampleJobs.length 2 ∧
      nextPage sampleJobs.length 2 ≤ totalPages sampleJobs.length) :=
  ⟨⟨by decide, by decide⟩, C10_pagination sampleJobs 2 (by decide) (by decide)⟩

/-! ## C3 -/

/-- C3: downloading is possible only for a complete job: the modelled
downloadResult fails with NotReady on any job whose phase is not complete,
and the client offers the download action exactly for jobs whose mapped
status is completed. -/
theorem C3_download_only_complete (j : Job) (aj : AiJob)
    (h : j.phase ≠ JobPhase.complete) :
    downloadResult j = .error .NotReady ∧
    (showDownloadAction aj = true ↔ aj.status = .completed) := by
  constructor
  · unfold downloadResult
    rw [if_neg h]
  · unfold showDownloadAction
    simp

/-- C3 witness: a queued job is not downloadable and a completed mapped
job shows the download action. -/
theorem C3_download_only_complete_witness :
    downloadResult ⟨.queued, 0, 0, 10⟩ = .error .NotReady ∧
    (showDownloadAction ⟨"a", "f.xlsx", .completed, 100, ""⟩ = true ↔
      (AiJob.mk "a" "f.xlsx" .completed 100 "").status = .completed) :=
  C3_download_only_complete ⟨.queued, 0, 0, 10⟩ ⟨"a", "f.xlsx", .completed, 100, ""⟩ (by decide)

/-! ## C4 -/

/-- Splitting a list of outcomes into Good and Bad loses nothing and
duplicates nothing. -/
theorem goodRowsOf_badRowsOf_length (outcomes : List ValidationOutcome) :
    (goodRowsOf outcomes).length + (badRowsOf outcomes).length = outcomes.length := by
  induction outcomes with
  | nil => rfl
  | cons o t ih =>
    rcases o with g | b <;>
      simp [goodRowsOf, badRowsOf, List.filterMap_cons] at ih ⊢ <;> omega

/-- A sheet contributes one outcome per row, and a run one outcome per
input row. -/
theorem validationOutcomes_length (sheets : List (SheetName × List RowData)) :
    (validationOutcomes sheets).length = totalRowCount sheets := by
  induction sheets with
  | nil => rfl
  | cons p t ih =>
    simp [validationOutcomes, totalRowCount, List.flatMap_cons, validateSheetRows,
      List.enum_length] at ih ⊢
    exact ih

/-- C4: validate classifies each row into exactly one of Good or Bad, so
the returned counts satisfy goodCount plus badCount equals the total
number of input rows. -/
theorem C4_validate_partitions (sheets : List (SheetName × List RowData)) :
    (validate sheets).goodCount + (validate sheets).badCount = totalRowCount sheets := by
  show (goodRowsOf (validationOutcomes sheets)).length
      + (badRowsOf (validationOutcomes sheets)).length = _
  rw [goodRowsOf_badRowsOf_length, validationOutcomes_length]

/-! ## C5 -/

/-- C5: a QCM-kind row with the required question text and an answer cell
is Good exactly when the answer passes the QCM predicate (letters A to E
case-insensitively, the question mark, or a no-answer sentinel), and
otherwise Bad with a reason naming the invalid value. -/
theorem C5_qcm_answer_rule (sheet : SheetName) (rowIdx : Nat) (data : RowData)
    (q a : String)
    (hs : isQcmSheet sheet = true)
    (hq : getCell data "question" = some q)
    (hqt : (strTrim q) ≠ "")
    (ha : getCell data "answer" = some a) :
    (qcmAnswerOk a = true →
      validateRow sheet rowIdx data = .good ⟨sheet, rowIdx, data⟩) ∧
    (qcmAnswerOk a = false →
      validateRow sheet rowIdx data = .bad ⟨sheet, rowIdx, invalidAnswerReason a, data⟩) := by
  unfold validateRow
  rw [hq, ha]
  simp only [if_neg hqt, hs, if_true]
  constructor
  · intro h
    rw [if_pos h]
  · intro h
    rw [if_neg (by simp [h])]

/-- C5 witness: with the question present, answer C is Good, the question
mark is Good, F is Bad naming the value, and the empty answer is Bad. -/
theorem C5_qcm_answer_rule_witness :
    validateRow .qcm 1 [("question", "Q1"), ("answer", "C")] =
      .good ⟨.qcm, 1, [("question", "Q1"), ("answer", "C")]⟩ ∧
    validateRow .qcm 2 [("question", "Q2"), ("answer", "?")] =
      .good ⟨.qcm, 2, [("question", "Q2"), ("answer", "?")]⟩ ∧
    validateRow .qcm 3 [("question", "Q3"), ("answer", "F")] =
      .bad ⟨.qcm, 3, invalidAnswerReason "F", [("question", "Q3"), ("answer", "F")]⟩ ∧
    validateRow .qcm 4 [("question", "Q4"), ("answer", "")] =
      .bad ⟨.qcm, 4, invalidAnswerReason "", [("question", "Q4"), ("answer", "")]⟩ :=
  ⟨(C5_qcm_answer_rule .qcm 1 _ "Q1" "C" rfl (by decide) (by decide) (by decide)).1 (by decide),
   (C5_qcm_answer_rule .qcm 2 _ "Q2" "?" rfl (by decide) (by decide) (by decide)).1 (by decide),
   (C5_qcm_answer_rule .qcm 3 _ "Q3" "F" rfl (by decide) (by decide) (by decide)).2 (by decide),
   (C5_qcm_answer_rule .qcm 4 _ "Q4" "" rfl (by decide) (by decide) (by decide)).2 (by decide)⟩

/-! ## C6 -/

/-- C6: a QROC-kind row with the required question text and an answer cell
is Good exactly when the answer is non-empty after trimming whitespace,
and Bad when the answer is blank. -/
theorem C6_qroc_answer_rule (sheet : SheetName) (rowIdx : Nat) (data : RowData)
    (q a : String)
    (hs : isQcmSheet sheet = false)
    (hq : getCell data "question" = some q)
    (hqt : (strTrim q) ≠ "")
    (ha : getCell data "answer" = some a) :
    ((strTrim a) ≠ "" →
      validateRow sheet rowIdx data = .good ⟨sheet, rowIdx, data⟩) ∧
    ((strTrim a) = "" →
      validateRow sheet rowIdx data = .bad ⟨sheet, rowIdx, emptyAnswerReason, data⟩) := by
  unfold validateRow
  rw [hq, ha]
  simp only [if_neg hqt, hs, Bool.false_eq_true, if_false]
  constructor
  · intro h
    rw [if_neg h]
  · intro h
    rw [if_pos h]

/-- C6 witness: a QROC row with a whitespace-only answer is Bad and one
answering Diabetes is Good. -/
theorem C6_qroc_answer_rule_witness :
    validateRow .qroc 1 [("question", "Q1"), ("answer", "Diabetes")] =
      .good ⟨.qroc, 1, [("question", "Q1"), ("answer", "Diabetes")]⟩ ∧
    validateRow .qroc 2 [("question", "Q2"), ("answer", "   ")] =
      .bad ⟨.qroc, 2, emptyAnswerReason, [("question", "Q2"), ("answer", "   ")]⟩ :=
  ⟨(C6_qroc_answer_rule .qroc 1 _ "Q1" "Diabetes" rfl (by decide) (by decide) (by decide)).1
      (by decide),
   (C6_qroc_answer_rule .qroc 2 _ "Q2" "   " rfl (by decide) (by decide) (by decide)).2
      (by decide)⟩

/-! ## C7 -/

/-- Recomputed progress never exceeds 100 while the processed counter
stays within the total. -/
theorem progressOf_le_100 (processed total : Nat) (h : processed ≤ total) :
    progressOf processed total ≤ 100 := by
  unfold progressOf
  split_ifs with h0
  · exact le_refl 100
  · calc processed * 100 / total ≤ total * 100 / total :=
        Nat.div_le_div_right (Nat.mul_le_mul_right 100 h)
    _ = 100 := by
        rw [Nat.mul_comm]
        exact Nat.mul_div_cancel 100 (Nat.pos_of_ne_zero h0)

/-- Recomputed progress is monotone in the processed counter. -/
theorem progressOf_mono (total p1 p2 : Nat) (h : p1 ≤ p2) :
    progressOf p1 total ≤ progressOf p2 total := by
  unfold progressOf
  split_ifs
  · exact le_refl 100
  · exact Nat.div_le_div_right (Nat.mul_le_mul_right 100 h)

/-- The freshly created job satisfies the state invariant. -/
theorem jobInv_init (total : Nat) : jobInv (initJob total) :=
  ⟨Nat.zero_le 100, Nat.zero_le total, fun _ => rfl,
   fun h => JobPhase.noConfusion h, fun h => JobPhase.noConfusion h⟩

/-- Every lifecycle transition preserves the state invariant. -/
theorem jobInv_step {s s2 : Job} (hinv : jobInv s) (hstep : JobStep s s2) : jobInv s2 := by
  cases hstep with
  | start total =>
    exact ⟨progressOf_le_100 0 total (Nat.zero_le total), Nat.zero_le total,
      fun h => JobPhase.noConfusion h, fun _ => rfl, fun h => JobPhase.noConfusion h⟩
  | batch j processed hrun hle hletot =>
    exact ⟨progressOf_le_100 processed s.totalItems hletot, hletot,
      fun h => JobPhase.noConfusion h, fun _ => rfl, fun h => JobPhase.noConfusion h⟩
  | finish j hrun =>
    exact ⟨le_refl 100, le_refl _,
      fun h => JobPhase.noConfusion h, fun h => JobPhase.noConfusion h, fun _ => rfl⟩
  | fail j hrun =>
    exact ⟨hinv.1, hinv.2.1,
      fun h => JobPhase.noConfusion h, fun h => JobPhase.noConfusion h,
      fun h => JobPhase.noConfusion h⟩

/-- Under the invariant, no transition decreases the progress field. -/
theorem jobStep_mono {s s2 : Job} (hinv : jobInv s) (hstep : JobStep s s2) :
    s.progress ≤ s2.progress := by
  cases hstep with
  | start total => exact Nat.zero_le _
  | batch j processed hrun hle hletot =>
    have hp := hinv.2.2.2.1 hrun
    rw [hp]
    exact progressOf_mono _ _ _ hle
  | finish j hrun => exact hinv.1
  | fail j hrun => exact le_refl _

/-- Every state a poller can observe satisfies the invariant. -/
theorem jobReachable_inv (total : Nat) (s : Job) (h : JobReachable total s) :
    jobInv s := by
  unfold JobReachable at h
  induction h with
  | refl => exact jobInv_init total
  | tail hsteps hstep ih => exact jobInv_step ih hstep

/-- C7: in every observable state of a job, progress is between 0 and 100,
it equals exactly 100 whenever the phase is complete, and no further
transition decreases it, so the sequence a poller observes is
non-decreasing. -/
theorem C7_progress_invariant (total : Nat) (s s2 : Job)
    (hs : JobReachable total s) :
    s.progress ≤ 100 ∧
    (s.phase = .complete → s.progress = 100) ∧
    (JobStep s s2 → s.progress ≤ s2.progress) := by
  have hinv := jobReachable_inv total s hs
  exact ⟨hinv.1, hinv.2.2.2.2, fun hstep => jobStep_mono hinv hstep⟩

/-- C7 witness: the completed state of a ten-item job is reachable from
creation and the theorem applies to it. -/
theorem C7_progress_invariant_witness :
    (Job.mk .complete 100 10 10).progress ≤ 100 ∧
    ((Job.mk .complete 100 10 10).phase = .complete →
      (Job.mk .complete 100 10 10).progress = 100) ∧
    (JobStep (Job.mk .complete 100 10 10) (Job.mk .complete 100 10 10) →
      (Job.mk .complete 100 10 10).progress ≤ (Job.mk .complete 100 10 10).progress) := by
  refine C7_progress_invariant 10 _ (Job.mk .complete 100 10 10) ?_
  exact Relation.ReflTransGen.head (JobStep.start 10)
    (Relation.ReflTransGen.single (JobStep.finish ⟨.running, progressOf 0 10, 0, 10⟩ rfl))

end MedqValidation
